import Mathlib

/-!
Verification of the ODB compatibility header (odb_compatibility.h).

Part 1 models the preprocessor logic that decides whether the auto_ptr
shim is compiled in (the flag definitions at lines 13-19 and the
activation test at line 30 of the header).

Part 2 is a shallow embedding of the auto_ptr class the shim defines.
Pointers are modelled as natural-number addresses; the null pointer is
Option.none.  Deallocation is modelled explicitly: every executed
`delete p` with p non-null appends the address p to an event log and
marks the address free in an explicit heap.  Handle identity (the
`this != &other` test in the assignment operators) is modelled by a
machine whose state holds all live handles indexed by a handle id.
-/

/-- Initial preprocessor macro environment as it stands before the header is
processed: whether __GNUC__ is defined, the value of __cplusplus, whether the
two compatibility flags are defined, and whether _MSC_VER is defined. -/
structure PPEnv where
  gnuc : Bool
  cplusplus : Nat
  glibcxxUseDeprecated : Bool
  libcppEnableRemovedAutoPtr : Bool
  msvc : Bool
deriving DecidableEq

/-- Lines 13-19 of the header: an `#ifndef` guarded `#define` of each of the
two compatibility flags.  After this block both flags are defined, whatever
the initial environment was. -/
def afterCompatDefines (e : PPEnv) : PPEnv :=
  { e with glibcxxUseDeprecated := true, libcppEnableRemovedAutoPtr := true }

/-- Line 30 of the header:
`#if defined(__GNUC__) && (__cplusplus >= 201703L) && !defined(_GLIBCXX_USE_DEPRECATED)`,
evaluated in the environment as it stands when that line is reached, that is
after the unconditional flag definitions have run. -/
def shimActive (e : PPEnv) : Bool :=
  (afterCompatDefines e).gnuc
    && decide (201703 ≤ (afterCompatDefines e).cplusplus)
    && !(afterCompatDefines e).glibcxxUseDeprecated

/-- The activation predicate stated by the specification, on the initial
environment: the GNU toolchain is active, the language-standard revision in
effect is at or past C++17, and no compatibility flag restoring the legacy
type was set before the header ran. -/
def specShimActive (e : PPEnv) : Bool :=
  e.gnuc && decide (201703 ≤ e.cplusplus) && !e.glibcxxUseDeprecated

/-- Modelled from the spec: what the toolchain itself provides is outside this
repository.  Per the spec, the GNU family physically removed the legacy type
starting at C++17 and restores it when the compatibility flag is set; the
header includes <memory> before defining any flag, so the library is
configured by the initial environment.  All other toolchains keep providing
the legacy type. -/
def toolchainProvidesLegacy (e : PPEnv) : Bool :=
  !(e.gnuc && decide (201703 ≤ e.cplusplus) && !e.glibcxxUseDeprecated)

/-- Number of definitions of the legacy pointer type visible to a consuming
translation unit: the native one when the toolchain provides it, plus the
shim when it is active. -/
def visibleDefs (e : PPEnv) : Nat :=
  (if toolchainProvidesLegacy e then 1 else 0) + (if shimActive e then 1 else 0)

/-- The critical environment: GNU toolchain, C++17 in effect, no compatibility
flag set before the header runs.  The specification requires the shim to be
active exactly here. -/
def badEnv : PPEnv :=
  { gnuc := true, cplusplus := 201703, glibcxxUseDeprecated := false,
    libcppEnableRemovedAutoPtr := false, msvc := false }

/-- Deallocation events emitted by one executed `delete p`: deleting the null
pointer deallocates nothing, deleting address p deallocates p once. -/
def deleteEvents : Option Nat → List Nat
  | none => []
  | some p => [p]

/-- Effect of one executed `delete p` on the explicit heap of allocated
flags: deleting null leaves the heap unchanged, deleting address p frees p. -/
def deleteHeap (h : Nat → Bool) : Option Nat → Nat → Bool
  | none => h
  | some p => Function.update h p false

/-- The shim class auto_ptr, one handle: its single data member is the raw
owned pointer ptr_, nullable. -/
structure auto_ptr where
  ptr_ : Option Nat
deriving DecidableEq

/-- The transfer proxy auto_ptr_ref: a raw pointer carried by value. -/
structure auto_ptr_ref where
  ptr_ : Option Nat
deriving DecidableEq

/-- Constructor `explicit auto_ptr(T* ptr = nullptr) : ptr_(ptr)`. -/
def auto_ptr.make (p : Option Nat) : auto_ptr := ⟨p⟩

/-- A default-constructed handle: the constructor default argument is
nullptr. -/
def autoPtrDefault : auto_ptr := auto_ptr.make none

/-- Member `T* release() { T* tmp = ptr_; ptr_ = nullptr; return tmp; }`:
returns the owned pointer and the handle afterwards. -/
def auto_ptr.release (a : auto_ptr) : Option Nat × auto_ptr := (a.ptr_, ⟨none⟩)

/-- Member `T* get() const { return ptr_; }`: returns the owned pointer and
the handle as the code leaves it. -/
def auto_ptr.get (a : auto_ptr) : Option Nat × auto_ptr := (a.ptr_, a)

/-- Member `T& operator*() const { return *ptr_; }`: returns the referenced
location and the handle as the code leaves it. -/
def auto_ptr.star (a : auto_ptr) : Option Nat × auto_ptr := (a.ptr_, a)

/-- Member `T* operator->() const { return ptr_; }`: returns the owned
pointer and the handle as the code leaves it. -/
def auto_ptr.arrow (a : auto_ptr) : Option Nat × auto_ptr := (a.ptr_, a)

/-- Constructor `auto_ptr(auto_ptr& other) : ptr_(other.release())`: the new
handle paired with the source handle afterwards. -/
def auto_ptr.copyCtor (other : auto_ptr) : auto_ptr × auto_ptr :=
  (⟨(other.release).1⟩, (other.release).2)

/-- Constructor `auto_ptr(auto_ptr_ref<T> ref) : ptr_(ref.ptr_)`. -/
def auto_ptr.ofRef (r : auto_ptr_ref) : auto_ptr := ⟨r.ptr_⟩

/-- Conversion `operator auto_ptr_ref<U>() { return auto_ptr_ref<U>(this->release()); }`:
the proxy paired with the handle afterwards. -/
def auto_ptr.toRef (a : auto_ptr) : auto_ptr_ref × auto_ptr :=
  (⟨(a.release).1⟩, (a.release).2)

/-- Member `operator=(auto_ptr_ref<T> ref)`: if the carried pointer differs
from the owned one, delete the owned instance and take the carried pointer.
Returns the handle afterwards and the deallocation events emitted. -/
def auto_ptr.assignRef (a : auto_ptr) (r : auto_ptr_ref) : auto_ptr × List Nat :=
  if r.ptr_ ≠ a.ptr_ then (⟨r.ptr_⟩, deleteEvents a.ptr_) else (a, [])

/-- Member `void reset(T* ptr = nullptr)`: if ptr differs from the owned
pointer, delete the owned instance and take ptr.  Returns the handle
afterwards and the deallocation events emitted. -/
def auto_ptr.reset (a : auto_ptr) (p : Option Nat) : auto_ptr × List Nat :=
  if p ≠ a.ptr_ then (⟨p⟩, deleteEvents a.ptr_) else (a, [])

/-- Destructor `~auto_ptr() { delete ptr_; }`: the deallocation events it
emits. -/
def auto_ptr.destroy (a : auto_ptr) : List Nat := deleteEvents a.ptr_

/-- Element types for the covariant transfer: a base type and a derived
type. -/
inductive Ty
  | base
  | derived
deriving DecidableEq

/-- Pointer convertibility between element types, the compile-time condition
for instantiating the conversion operator: a pointer converts to a pointer to
the same type, and a derived pointer converts to a base pointer. -/
def ptrConvertible (t u : Ty) : Bool :=
  t == u || (t == Ty.derived && u == Ty.base)

/-- The auto_ptr template specialised at an element type, for the covariant
claims: the element type is carried as a tag next to the owned pointer. -/
structure TAutoPtr where
  ty : Ty
  ptr_ : Option Nat
deriving DecidableEq

/-- The auto_ptr_ref template specialised at an element type. -/
structure TAutoPtrRef where
  ty : Ty
  ptr_ : Option Nat
deriving DecidableEq

/-- Member release on the typed handle. -/
def TAutoPtr.release (a : TAutoPtr) : Option Nat × TAutoPtr :=
  (a.ptr_, ⟨a.ty, none⟩)

/-- Conversion `operator auto_ptr_ref<U>()` of a typed handle into a proxy of
element type u: release and repackage. -/
def TAutoPtr.toRefAs (a : TAutoPtr) (u : Ty) : TAutoPtrRef × TAutoPtr :=
  (⟨u, (a.release).1⟩, (a.release).2)

/-- Constructor `auto_ptr(auto_ptr_ref<T> ref)` at the element type of the
proxy. -/
def TAutoPtr.ofRef (r : TAutoPtrRef) : TAutoPtr := ⟨r.ty, r.ptr_⟩

/-- State of the handle machine: all handles ever constructed (indexed by
handle id, null once dead), the id to be used by the next construction, the
explicit heap of allocated flags, and the log of deallocation events. -/
structure MState where
  handles : Nat → Option Nat
  next : Nat
  heap : Nat → Bool
  events : List Nat

/-- Operations of the handle machine, one per member of the class that
touches ownership. -/
inductive Op where
  | construct (p : Option Nat)
  | copyFrom (j : Nat)
  | assign (i j : Nat)
  | assignRef (i : Nat) (p : Option Nat)
  | toProxy (i : Nat)
  | release (i : Nat)
  | reset (i : Nat) (p : Option Nat)
  | destroy (i : Nat)
deriving DecidableEq

/-- One step of the handle machine.  Each arm is the body of the
corresponding member of the source class: construct stores the raw pointer
in a fresh handle; copyFrom releases the source into a fresh handle;
assign, on distinct objects, deletes the owned instance of the target and
releases the source into it, and on the same object does nothing; assignRef
and reset are guarded by pointer inequality and delete the owned instance
before taking the new pointer; toProxy and release null the handle without
deleting; destroy deletes the owned instance. -/
def step (s : MState) : Op → MState
  | .construct p =>
      { s with handles := Function.update s.handles s.next p, next := s.next + 1 }
  | .copyFrom j =>
      { s with
        handles := Function.update (Function.update s.handles j none) s.next
          (s.handles j),
        next := s.next + 1 }
  | .assign i j =>
      if i = j then s
      else
        { s with
          handles := Function.update (Function.update s.handles i (s.handles j)) j none,
          heap := deleteHeap s.heap (s.handles i),
          events := s.events ++ deleteEvents (s.handles i) }
  | .assignRef i p =>
      if p ≠ s.handles i then
        { s with
          handles := Function.update s.handles i p,
          heap := deleteHeap s.heap (s.handles i),
          events := s.events ++ deleteEvents (s.handles i) }
      else s
  | .toProxy i => { s with handles := Function.update s.handles i none }
  | .release i => { s with handles := Function.update s.handles i none }
  | .reset i p =>
      if p ≠ s.handles i then
        { s with
          handles := Function.update s.handles i p,
          heap := deleteHeap s.heap (s.handles i),
          events := s.events ++ deleteEvents (s.handles i) }
      else s
  | .destroy i =>
      { s with
        handles := Function.update s.handles i none,
        heap := deleteHeap s.heap (s.handles i),
        events := s.events ++ deleteEvents (s.handles i) }

/-- Run a sequence of operations. -/
def run (s : MState) : List Op → MState
  | [] => s
  | op :: ops => run (step s op) ops

/-- Well-formedness: handle ids not yet handed out hold no pointer. -/
def WF (s : MState) : Prop := ∀ i, s.next ≤ i → s.handles i = none

/-- Single ownership: no two distinct handles own the same instance. -/
def SingleOwner (f : Nat → Option Nat) : Prop :=
  ∀ p i j, f i = some p → f j = some p → i = j

/-- A raw pointer is fresh for the machine when it is null or owned by no
constructed handle: raw pointers handed to a constructor come from a fresh
heap allocation. -/
def Fresh (s : MState) (p : Option Nat) : Prop :=
  p = none ∨ ∀ i, i < s.next → s.handles i ≠ p

/-- A raw pointer fed to handle k is fresh for every handle other than k:
a proxy pointer was released from some handle, so at assignment time it is
owned by nobody, or it is the pointer k itself still owns. -/
def FreshFor (s : MState) (k : Nat) (p : Option Nat) : Prop :=
  p = none ∨ ∀ i, i < s.next → i ≠ k → s.handles i ≠ p

/-- Side condition of each operation: it touches only constructed handles
and injects only fresh raw pointers. -/
def OkOp (s : MState) : Op → Prop
  | .construct p => Fresh s p
  | .copyFrom j => j < s.next
  | .assign i j => i < s.next ∧ j < s.next
  | .assignRef i p => i < s.next ∧ FreshFor s i p
  | .toProxy i => i < s.next
  | .release i => i < s.next
  | .reset i p => i < s.next ∧ FreshFor s i p
  | .destroy i => i < s.next

/-- Side condition of a sequence, each operation judged in the state it
runs in. -/
def OkSeq (s : MState) : List Op → Prop
  | [] => True
  | op :: ops => OkOp s op ∧ OkSeq (step s op) ops

instance (s : MState) (p : Option Nat) : Decidable (Fresh s p) :=
  inferInstanceAs (Decidable (p = none ∨ ∀ i, i < s.next → s.handles i ≠ p))

instance (s : MState) (k : Nat) (p : Option Nat) : Decidable (FreshFor s k p) :=
  inferInstanceAs
    (Decidable (p = none ∨ ∀ i, i < s.next → i ≠ k → s.handles i ≠ p))

instance (s : MState) : (op : Op) → Decidable (OkOp s op)
  | .construct p => inferInstanceAs (Decidable (Fresh s p))
  | .copyFrom j => inferInstanceAs (Decidable (j < s.next))
  | .assign i j => inferInstanceAs (Decidable (i < s.next ∧ j < s.next))
  | .assignRef i p => inferInstanceAs (Decidable (i < s.next ∧ FreshFor s i p))
  | .toProxy i => inferInstanceAs (Decidable (i < s.next))
  | .release i => inferInstanceAs (Decidable (i < s.next))
  | .reset i p => inferInstanceAs (Decidable (i < s.next ∧ FreshFor s i p))
  | .destroy i => inferInstanceAs (Decidable (i < s.next))

/-- Decision procedure for the admissibility of a sequence. -/
def decOkSeq : (ops : List Op) → (s : MState) → Decidable (OkSeq s ops)
  | [], _ => Decidable.isTrue trivial
  | op :: ops, s =>
      @instDecidableAnd _ _ inferInstance (decOkSeq ops (step s op))

instance (s : MState) (ops : List Op) : Decidable (OkSeq s ops) := decOkSeq ops s

/-- The machine invariant: well-formed and singly owned. -/
def MInv (s : MState) : Prop := WF s ∧ SingleOwner s.handles

/-- The empty initial state: no handles, empty heap, no events. -/
def s0 : MState :=
  { handles := fun _ => none, next := 0, heap := fun _ => false, events := [] }

/-- A sample operation sequence exercising every kind of transfer. -/
def demoOps : List Op :=
  [Op.construct (some 5), Op.construct (some 7), Op.assign 0 1,
   Op.copyFrom 0, Op.toProxy 2, Op.reset 1 (some 9), Op.destroy 1]

/-- Single ownership is preserved by writing a fresh pointer into the fresh
slot of a well-formed state, the construct step. -/
theorem so_construct (s : MState) (p : Option Nat) (hwf : WF s)
    (hso : SingleOwner s.handles) (hf : Fresh s p) :
    SingleOwner (Function.update s.handles s.next p) := by
  intro q a b ha hb
  rcases eq_or_ne a s.next with hA | hA <;> rcases eq_or_ne b s.next with hB | hB
  · rw [hA, hB]
  · subst hA
    rw [Function.update_same] at ha
    rw [Function.update_noteq hB] at hb
    have hbn : b < s.next := by
      by_contra hge
      push_neg at hge
      rw [hwf b hge] at hb
      exact Option.noConfusion hb
    rcases hf with hnone | hfr
    · rw [hnone] at ha
      exact Option.noConfusion ha
    · exact absurd (hb.trans ha.symm) (hfr b hbn)
  · subst hB
    rw [Function.update_same] at hb
    rw [Function.update_noteq hA] at ha
    have han : a < s.next := by
      by_contra hge
      push_neg at hge
      rw [hwf a hge] at ha
      exact Option.noConfusion ha
    rcases hf with hnone | hfr
    · rw [hnone] at hb
      exact Option.noConfusion hb
    · exact absurd (ha.trans hb.symm) (hfr a han)
  · rw [Function.update_noteq hA] at ha
    rw [Function.update_noteq hB] at hb
    exact hso q a b ha hb

/-- Single ownership is preserved by the transfer-copy step: the source slot
is nulled and its pointer moves to the fresh slot. -/
theorem so_copyFrom (s : MState) (j : Nat) (hso : SingleOwner s.handles) :
    SingleOwner
      (Function.update (Function.update s.handles j none) s.next (s.handles j)) := by
  intro q a b ha hb
  rcases eq_or_ne a s.next with hA | hA <;> rcases eq_or_ne b s.next with hB | hB
  · rw [hA, hB]
  · subst hA
    rw [Function.update_same] at ha
    rw [Function.update_noteq hB] at hb
    rcases eq_or_ne b j with hbj | hbj
    · subst hbj
      rw [Function.update_same] at hb
      exact Option.noConfusion hb
    · rw [Function.update_noteq hbj] at hb
      exact absurd (hso q j b ha hb).symm hbj
  · subst hB
    rw [Function.update_same] at hb
    rw [Function.update_noteq hA] at ha
    rcases eq_or_ne a j with haj | haj
    · subst haj
      rw [Function.update_same] at ha
      exact Option.noConfusion ha
    · rw [Function.update_noteq haj] at ha
      exact absurd (hso q a j ha hb) haj
  · rw [Function.update_noteq hA] at ha
    rw [Function.update_noteq hB] at hb
    rcases eq_or_ne a j with haj | haj
    · subst haj
      rw [Function.update_same] at ha
      exact Option.noConfusion ha
    · rcases eq_or_ne b j with hbj | hbj
      · subst hbj
        rw [Function.update_same] at hb
        exact Option.noConfusion hb
      · rw [Function.update_noteq haj] at ha
        rw [Function.update_noteq hbj] at hb
        exact hso q a b ha hb

/-- Single ownership is preserved by the assignment step on distinct
handles: the target takes the pointer of the source and the source slot is
nulled. -/
theorem so_assign (s : MState) (i j : Nat) (hso : SingleOwner s.handles) :
    SingleOwner
      (Function.update (Function.update s.handles i (s.handles j)) j none) := by
  intro q a b ha hb
  rcases eq_or_ne a j with hA | hA
  · subst hA
    rw [Function.update_same] at ha
    exact Option.noConfusion ha
  · rcases eq_or_ne b j with hB | hB
    · subst hB
      rw [Function.update_same] at hb
      exact Option.noConfusion hb
    · rw [Function.update_noteq hA] at ha
      rw [Function.update_noteq hB] at hb
      rcases eq_or_ne a i with hAi | hAi <;> rcases eq_or_ne b i with hBi | hBi
      · rw [hAi, hBi]
      · subst hAi
        rw [Function.update_same] at ha
        rw [Function.update_noteq hBi] at hb
        exact absurd (hso q j b ha hb).symm hB
      · subst hBi
        rw [Function.update_same] at hb
        rw [Function.update_noteq hAi] at ha
        exact absurd (hso q a j ha hb) hA
      · rw [Function.update_noteq hAi] at ha
        rw [Function.update_noteq hBi] at hb
        exact hso q a b ha hb

/-- Single ownership is preserved by overwriting a constructed slot with a
pointer fresh for every other handle, the assignRef and reset steps. -/
theorem so_update (s : MState) (i : Nat) (p : Option Nat) (hwf : WF s)
    (hso : SingleOwner s.handles) (hf : FreshFor s i p) :
    SingleOwner (Function.update s.handles i p) := by
  intro q a b ha hb
  rcases eq_or_ne a i with hA | hA <;> rcases eq_or_ne b i with hB | hB
  · rw [hA, hB]
  · subst hA
    rw [Function.update_same] at ha
    rw [Function.update_noteq hB] at hb
    have hbn : b < s.next := by
      by_contra hge
      push_neg at hge
      rw [hwf b hge] at hb
      exact Option.noConfusion hb
    rcases hf with hnone | hfr
    · rw [hnone] at ha
      exact Option.noConfusion ha
    · exact absurd (hb.trans ha.symm) (hfr b hbn hB)
  · subst hB
    rw [Function.update_same] at hb
    rw [Function.update_noteq hA] at ha
    have han : a < s.next := by
      by_contra hge
      push_neg at hge
      rw [hwf a hge] at ha
      exact Option.noConfusion ha
    rcases hf with hnone | hfr
    · rw [hnone] at hb
      exact Option.noConfusion hb
    · exact absurd (ha.trans hb.symm) (hfr a han hA)
  · rw [Function.update_noteq hA] at ha
    rw [Function.update_noteq hB] at hb
    exact hso q a b ha hb

/-- Single ownership is preserved by nulling a slot, the toProxy, release
and destroy steps. -/
theorem so_erase (s : MState) (i : Nat) (hso : SingleOwner s.handles) :
    SingleOwner (Function.update s.handles i none) := by
  intro q a b ha hb
  rcases eq_or_ne a i with hA | hA
  · subst hA
    rw [Function.update_same] at ha
    exact Option.noConfusion ha
  · rcases eq_or_ne b i with hB | hB
    · subst hB
      rw [Function.update_same] at hb
      exact Option.noConfusion hb
    · rw [Function.update_noteq hA] at ha
      rw [Function.update_noteq hB] at hb
      exact hso q a b ha hb

/-- One admissible step preserves the machine invariant. -/
theorem inv_step (s : MState) (op : Op) (h : MInv s) (hok : OkOp s op) :
    MInv (step s op) := by
  obtain ⟨hwf, hso⟩ := h
  cases op with
  | construct p =>
      refine ⟨?_, so_construct s p hwf hso hok⟩
      intro i hi
      have hi2 : s.next + 1 ≤ i := hi
      show Function.update s.handles s.next p i = none
      rw [Function.update_noteq (by omega : i ≠ s.next)]
      exact hwf i (by omega)
  | copyFrom j =>
      refine ⟨?_, so_copyFrom s j hso⟩
      intro i hi
      have hi2 : s.next + 1 ≤ i := hi
      show Function.update (Function.update s.handles j none) s.next (s.handles j) i
        = none
      rw [Function.update_noteq (by omega : i ≠ s.next)]
      rcases eq_or_ne i j with hij | hij
      · subst hij
        rw [Function.update_same]
      · rw [Function.update_noteq hij]
        exact hwf i (by omega)
  | assign i j =>
      obtain ⟨hin, hjn⟩ := hok
      simp only [step]
      split
      · exact ⟨hwf, hso⟩
      · refine ⟨?_, so_assign s i j hso⟩
        intro k hk
        have hk2 : s.next ≤ k := hk
        show Function.update (Function.update s.handles i (s.handles j)) j none k
          = none
        rw [Function.update_noteq (by omega : k ≠ j)]
        rw [Function.update_noteq (by omega : k ≠ i)]
        exact hwf k hk2
  | assignRef i p =>
      obtain ⟨hin, hfr⟩ := hok
      simp only [step]
      split
      · refine ⟨?_, so_update s i p hwf hso hfr⟩
        intro k hk
        have hk2 : s.next ≤ k := hk
        show Function.update s.handles i p k = none
        rw [Function.update_noteq (by omega : k ≠ i)]
        exact hwf k hk2
      · exact ⟨hwf, hso⟩
  | toProxy i =>
      refine ⟨?_, so_erase s i hso⟩
      intro k hk
      show Function.update s.handles i none k = none
      rcases eq_or_ne k i with hki | hki
      · subst hki
        rw [Function.update_same]
      · rw [Function.update_noteq hki]
        exact hwf k hk
  | release i =>
      refine ⟨?_, so_erase s i hso⟩
      intro k hk
      show Function.update s.handles i none k = none
      rcases eq_or_ne k i with hki | hki
      · subst hki
        rw [Function.update_same]
      · rw [Function.update_noteq hki]
        exact hwf k hk
  | reset i p =>
      obtain ⟨hin, hfr⟩ := hok
      simp only [step]
      split
      · refine ⟨?_, so_update s i p hwf hso hfr⟩
        intro k hk
        have hk2 : s.next ≤ k := hk
        show Function.update s.handles i p k = none
        rw [Function.update_noteq (by omega : k ≠ i)]
        exact hwf k hk2
      · exact ⟨hwf, hso⟩
  | destroy i =>
      refine ⟨?_, so_erase s i hso⟩
      intro k hk
      show Function.update s.handles i none k = none
      rcases eq_or_ne k i with hki | hki
      · subst hki
        rw [Function.update_same]
      · rw [Function.update_noteq hki]
        exact hwf k hk

/-- An admissible sequence of steps preserves the machine invariant. -/
theorem inv_run (s : MState) (ops : List Op) (h : MInv s) (hok : OkSeq s ops) :
    MInv (run s ops) := by
  induction ops generalizing s with
  | nil => exact h
  | cons op ops ih => exact ih (step s op) (inv_step s op h hok.1) hok.2

/-- C1: the header computes the shim activation condition after having
unconditionally defined the compatibility flag it tests, so the shim is never
compiled in; on the initial environment the specification designates (GNU
toolchain, C++17 in effect, no flag preset) the specified predicate holds,
the code leaves the shim inactive, and a consumer sees zero definitions of
the legacy type rather than exactly one. -/
theorem C1_shim_never_active :
    shimActive badEnv = false ∧ specShimActive badEnv = true ∧
    (∀ e : PPEnv, shimActive e = false) ∧
    visibleDefs badEnv = 0 := by
  refine ⟨rfl, rfl, ?_, rfl⟩
  intro e
  simp [shimActive, afterCompatDefines]

/-- C2: for every admissible sequence of operations on any set of handles,
at most one live handle owns a given heap instance at any time, and every
transfer operation (copy construction, copy assignment on distinct objects,
conversion to a proxy) leaves the source handle null. -/
theorem C2_single_ownership :
    (∀ s ops, MInv s → OkSeq s ops → SingleOwner (run s ops).handles) ∧
    (∀ s j, j < s.next → (step s (Op.copyFrom j)).handles j = none) ∧
    (∀ s i j, i ≠ j → (step s (Op.assign i j)).handles j = none) ∧
    (∀ s i, (step s (Op.toProxy i)).handles i = none) := by
  refine ⟨fun s ops h hok => (inv_run s ops h hok).2, ?_, ?_, ?_⟩
  · intro s j hj
    show Function.update (Function.update s.handles j none) s.next (s.handles j) j
      = none
    rw [Function.update_noteq (by omega : j ≠ s.next), Function.update_same]
  · intro s i j hij
    simp only [step, if_neg hij]
    show Function.update (Function.update s.handles i (s.handles j)) j none j = none
    rw [Function.update_same]
  · intro s i
    show Function.update s.handles i none i = none
    rw [Function.update_same]

/-- Witness for C2 at the empty state and a concrete operation sequence. -/
theorem C2_single_ownership_witness :
    SingleOwner (run s0 demoOps).handles ∧
    (step (step s0 (Op.construct (some 5))) (Op.copyFrom 0)).handles 0 = none ∧
    (step s0 (Op.assign 0 1)).handles 1 = none ∧
    (step s0 (Op.toProxy 0)).handles 0 = none :=
  ⟨C2_single_ownership.1 s0 demoOps
      ⟨fun _ _ => rfl, fun _ _ b ha _ => Option.noConfusion ha⟩ (by decide),
   C2_single_ownership.2.1 (step s0 (Op.construct (some 5))) 0 (by decide),
   C2_single_ownership.2.2.1 s0 0 1 (by decide),
   C2_single_ownership.2.2.2 s0 0⟩

/-- C3: assigning B = A for distinct handles where B owns an instance
different from the one A owns deallocates the prior instance of B exactly
once, makes B own the instance A owned, and leaves A null. -/
theorem C3_assign_transfer (s : MState) (i j a b : Nat)
    (hij : i ≠ j) (hb : s.handles i = some b) (ha : s.handles j = some a)
    (hab : a ≠ b) :
    (step s (Op.assign i j)).handles i = some a ∧
    (step s (Op.assign i j)).handles j = none ∧
    (step s (Op.assign i j)).events = s.events ++ [b] ∧
    (step s (Op.assign i j)).events.count b = s.events.count b + 1 ∧
    (step s (Op.assign i j)).heap = Function.update s.heap b false := by
  simp only [step, if_neg hij]
  refine ⟨?_, ?_, ?_, ?_, ?_⟩
  · show Function.update (Function.update s.handles i (s.handles j)) j none i
      = some a
    rw [Function.update_noteq hij, Function.update_same, ha]
  · show Function.update (Function.update s.handles i (s.handles j)) j none j
      = none
    rw [Function.update_same]
  · show s.events ++ deleteEvents (s.handles i) = s.events ++ [b]
    rw [hb]
    rfl
  · show (s.events ++ deleteEvents (s.handles i)).count b = s.events.count b + 1
    rw [hb]
    simp [deleteEvents, List.count_append]
  · show deleteHeap s.heap (s.handles i) = Function.update s.heap b false
    rw [hb]
    rfl

/-- Witness for C3: two handles owning 5 and 7, assigning the second into
the first. -/
theorem C3_assign_transfer_witness :
    (step (run s0 [Op.construct (some 5), Op.construct (some 7)])
        (Op.assign 0 1)).handles 0 = some 7 ∧
    (step (run s0 [Op.construct (some 5), Op.construct (some 7)])
        (Op.assign 0 1)).handles 1 = none ∧
    (step (run s0 [Op.construct (some 5), Op.construct (some 7)])
        (Op.assign 0 1)).events
      = (run s0 [Op.construct (some 5), Op.construct (some 7)]).events ++ [5] ∧
    (step (run s0 [Op.construct (some 5), Op.construct (some 7)])
        (Op.assign 0 1)).events.count 5
      = (run s0 [Op.construct (some 5), Op.construct (some 7)]).events.count 5 + 1 ∧
    (step (run s0 [Op.construct (some 5), Op.construct (some 7)])
        (Op.assign 0 1)).heap
      = Function.update
          (run s0 [Op.construct (some 5), Op.construct (some 7)]).heap 5 false :=
  C3_assign_transfer (run s0 [Op.construct (some 5), Op.construct (some 7)])
    0 1 7 5 (by decide) (by decide) (by decide) (by decide)

/-- C4: self-assignment, checked by object identity, is a no-op performing
no deallocation, and so is assignment from a transfer proxy carrying the
very pointer the handle already owns. -/
theorem C4_self_assign :
    (∀ s i, step s (Op.assign i i) = s) ∧
    (∀ s i, step s (Op.assignRef i (s.handles i)) = s) := by
  constructor
  · intro s i
    simp [step]
  · intro s i
    simp [step]

/-- C5: releasing a handle that owns p returns p and leaves the handle null,
and the destructor of the released handle emits no deallocation at all, in
particular it deallocates p zero times. -/
theorem C5_release (a : auto_ptr) (p : Nat) (h : a.ptr_ = some p) :
    (a.release).1 = some p ∧
    (a.release).2.ptr_ = none ∧
    (a.release).2.destroy = [] ∧
    ((a.release).2.destroy).count p = 0 := by
  simp [auto_ptr.release, auto_ptr.destroy, deleteEvents, h]

/-- Witness for C5 at a handle owning address 3. -/
theorem C5_release_witness :
    ((auto_ptr.make (some 3)).release).1 = some 3 ∧
    ((auto_ptr.make (some 3)).release).2.ptr_ = none ∧
    ((auto_ptr.make (some 3)).release).2.destroy = [] ∧
    (((auto_ptr.make (some 3)).release).2.destroy).count 3 = 0 :=
  C5_release (auto_ptr.make (some 3)) 3 rfl

/-- C6: transfer-copy construction from a handle owning p makes the new
handle own p, leaves the source null, and get on the source afterwards
returns null. -/
theorem C6_copy_ctor (a : auto_ptr) (p : Nat) (h : a.ptr_ = some p) :
    (auto_ptr.copyCtor a).1.ptr_ = some p ∧
    (auto_ptr.copyCtor a).2.ptr_ = none ∧
    ((auto_ptr.copyCtor a).2.get).1 = none := by
  simp [auto_ptr.copyCtor, auto_ptr.release, auto_ptr.get, h]

/-- Witness for C6 at a handle owning address 4. -/
theorem C6_copy_ctor_witness :
    (auto_ptr.copyCtor (auto_ptr.make (some 4))).1.ptr_ = some 4 ∧
    (auto_ptr.copyCtor (auto_ptr.make (some 4))).2.ptr_ = none ∧
    ((auto_ptr.copyCtor (auto_ptr.make (some 4))).2.get).1 = none :=
  C6_copy_ctor (auto_ptr.make (some 4)) 4 rfl

/-- C7: converting a derived-type handle owning instance d into a base-type
transfer proxy and constructing a base-type handle from that proxy yields a
base-type handle owning d, with the source handle left null; the conversion
is admissible because a derived pointer converts to a base pointer. -/
theorem C7_covariant_roundtrip (a : TAutoPtr) (d : Nat)
    (hty : a.ty = Ty.derived) (hd : a.ptr_ = some d)
    (hconv : ptrConvertible a.ty Ty.base = true) :
    (TAutoPtr.ofRef (a.toRefAs Ty.base).1).ty = Ty.base ∧
    (TAutoPtr.ofRef (a.toRefAs Ty.base).1).ptr_ = some d ∧
    (a.toRefAs Ty.base).2.ptr_ = none := by
  simp [TAutoPtr.ofRef, TAutoPtr.toRefAs, TAutoPtr.release, hd]

/-- Witness for C7 at a derived handle owning address 3. -/
theorem C7_covariant_roundtrip_witness :
    (TAutoPtr.ofRef ((TAutoPtr.mk Ty.derived (some 3)).toRefAs Ty.base).1).ty
      = Ty.base ∧
    (TAutoPtr.ofRef ((TAutoPtr.mk Ty.derived (some 3)).toRefAs Ty.base).1).ptr_
      = some 3 ∧
    ((TAutoPtr.mk Ty.derived (some 3)).toRefAs Ty.base).2.ptr_ = none :=
  C7_covariant_roundtrip (TAutoPtr.mk Ty.derived (some 3)) 3 rfl rfl (by decide)

/-- C8: resetting handle i to a pointer q different from the owned instance
deallocates the current instance exactly once over the explicit heap and
takes ownership of q, and the handle owns q afterwards in all cases. -/
theorem C8_reset (s : MState) (i : Nat) (q : Option Nat) :
    (∀ b : Nat, s.handles i = some b → q ≠ some b →
      (step s (Op.reset i q)).events = s.events ++ [b] ∧
      (step s (Op.reset i q)).events.count b = s.events.count b + 1 ∧
      (step s (Op.reset i q)).heap = Function.update s.heap b false) ∧
    (step s (Op.reset i q)).handles i = q := by
  constructor
  · intro b hb hq
    have hne : q ≠ s.handles i := by
      rw [hb]
      exact hq
    simp only [step, if_pos hne]
    refine ⟨?_, ?_, ?_⟩
    · show s.events ++ deleteEvents (s.handles i) = s.events ++ [b]
      rw [hb]
      rfl
    · show (s.events ++ deleteEvents (s.handles i)).count b = s.events.count b + 1
      rw [hb]
      simp [deleteEvents, List.count_append]
    · show deleteHeap s.heap (s.handles i) = Function.update s.heap b false
      rw [hb]
      rfl
  · simp only [step]
    split
    · show Function.update s.handles i q i = q
      rw [Function.update_same]
    · next hq =>
      rw [not_not] at hq
      exact hq.symm

/-- Witness for C8: resetting a handle owning 5 to address 9. -/
theorem C8_reset_witness :
    (step (step s0 (Op.construct (some 5))) (Op.reset 0 (some 9))).events
      = (step s0 (Op.construct (some 5))).events ++ [5] ∧
    (step (step s0 (Op.construct (some 5))) (Op.reset 0 (some 9))).events.count 5
      = (step s0 (Op.construct (some 5))).events.count 5 + 1 ∧
    (step (step s0 (Op.construct (some 5))) (Op.reset 0 (some 9))).heap
      = Function.update (step s0 (Op.construct (some 5))).heap 5 false ∧
    (step (step s0 (Op.construct (some 5))) (Op.reset 0 (some 9))).handles 0
      = some 9 :=
  ⟨((C8_reset (step s0 (Op.construct (some 5))) 0 (some 9)).1 5
      (by decide) (by decide)).1,
   ((C8_reset (step s0 (Op.construct (some 5))) 0 (some 9)).1 5
      (by decide) (by decide)).2.1,
   ((C8_reset (step s0 (Op.construct (some 5))) 0 (some 9)).1 5
      (by decide) (by decide)).2.2,
   (C8_reset (step s0 (Op.construct (some 5))) 0 (some 9)).2⟩

/-- C9: the observers get, dereference and arrow access leave the handle
unchanged, so two consecutive get calls return the same value and ownership
is not transferred. -/
theorem C9_observers_pure (a : auto_ptr) :
    (a.get).2 = a ∧ (a.star).2 = a ∧ (a.arrow).2 = a ∧
    ((a.get).2.get).1 = (a.get).1 ∧
    ((a.star).2).ptr_ = a.ptr_ ∧ ((a.arrow).2).ptr_ = a.ptr_ := by
  simp [auto_ptr.get, auto_ptr.star, auto_ptr.arrow]

/-- C10: every deallocating operation is a no-op on a null handle: the
destructor of a null or default-constructed handle emits no deallocation,
and resetting, assigning into, or destroying a machine handle whose owned
pointer is null leaves the event log and the heap unchanged. -/
theorem C10_null_noop :
    (∀ a : auto_ptr, a.ptr_ = none → a.destroy = []) ∧
    autoPtrDefault.destroy = [] ∧
    (∀ s i q, s.handles i = none →
      (step s (Op.reset i q)).events = s.events ∧
      (step s (Op.reset i q)).heap = s.heap) ∧
    (∀ s i j, s.handles i = none →
      (step s (Op.assign i j)).events = s.events ∧
      (step s (Op.assign i j)).heap = s.heap) ∧
    (∀ s i, s.handles i = none →
      (step s (Op.destroy i)).events = s.events ∧
      (step s (Op.destroy i)).heap = s.heap) := by
  refine ⟨?_, rfl, ?_, ?_, ?_⟩
  · intro a h
    simp [auto_ptr.destroy, h, deleteEvents]
  · intro s i q h
    simp only [step]
    split
    · constructor
      · show s.events ++ deleteEvents (s.handles i) = s.events
        rw [h]
        simp [deleteEvents]
      · show deleteHeap s.heap (s.handles i) = s.heap
        rw [h]
        rfl
    · exact ⟨rfl, rfl⟩
  · intro s i j h
    simp only [step]
    split
    · exact ⟨rfl, rfl⟩
    · constructor
      · show s.events ++ deleteEvents (s.handles i) = s.events
        rw [h]
        simp [deleteEvents]
      · show deleteHeap s.heap (s.handles i) = s.heap
        rw [h]
        rfl
  · intro s i h
    constructor
    · show s.events ++ deleteEvents (s.handles i) = s.events
      rw [h]
      simp [deleteEvents]
    · show deleteHeap s.heap (s.handles i) = s.heap
      rw [h]
      rfl

/-- Witness for C10 at a released null handle and the empty machine state. -/
theorem C10_null_noop_witness :
    (auto_ptr.make none).destroy = [] ∧
    (step s0 (Op.reset 0 (some 2))).events = s0.events ∧
    (step s0 (Op.reset 0 (some 2))).heap = s0.heap ∧
    (step s0 (Op.assign 0 1)).events = s0.events ∧
    (step s0 (Op.assign 0 1)).heap = s0.heap ∧
    (step s0 (Op.destroy 0)).events = s0.events ∧
    (step s0 (Op.destroy 0)).heap = s0.heap :=
  ⟨C10_null_noop.1 (auto_ptr.make none) rfl,
   (C10_null_noop.2.2.1 s0 0 (some 2) rfl).1,
   (C10_null_noop.2.2.1 s0 0 (some 2) rfl).2,
   (C10_null_noop.2.2.2.1 s0 0 1 rfl).1,
   (C10_null_noop.2.2.2.1 s0 0 1 rfl).2,
   (C10_null_noop.2.2.2.2 s0 0 rfl).1,
   (C10_null_noop.2.2.2.2 s0 0 rfl).2⟩
